import Mathlib

/-!
Verification of the bank-data dashboard's filter/metrics/export pipeline
(`streamlit_app.py`), shallowly embedded in Lean 4.

The script loads a CSV into a DataFrame (`data`), applies up to three
sequential row selections (gender indicator, age range, target-sales range)
to a copy (`filtered_data`), displays mean/sum/median metrics, multiplies a
user input by 1.2 as a "prediction", and serializes the filtered view back
to CSV for download.

Records model the columns the script touches; the remaining (unused) columns
of a row are carried as raw strings in `others`. Numeric columns are embedded
as `Int` (the script applies Python `int()` to the slider bounds, and the
bank dataset's `demog_age` / `int_tgt` columns are integer-valued). Pandas
operations that return NaN on empty input (`.min()`, `.max()`, `.mean()`,
`.median()`) are embedded as `Option`-valued functions, with `none` playing
the role of NaN; Python's `int(NaN)`, which raises `ValueError`, is embedded
as propagating `none` (failure) through the pipeline.
-/

/-- One customer row, restricted to the columns `streamlit_app.py` reads:
`demog_age`, the gender indicator columns `demog_genm` / `demog_genf`
(values like `"yes"` / `"no"`), and the target-sales column `int_tgt`.
All remaining columns of the row are kept verbatim in `others`. -/
structure Record where
  demog_age : Int
  demog_genm : String
  demog_genf : String
  int_tgt : Int
  others : List String
deriving DecidableEq, Repr

/-- The sidebar gender selectbox: `['All', 'Male', 'Female']`. -/
inductive Gender where
  | all
  | male
  | female
deriving DecidableEq, Repr

/-- `filtered_data = data.copy()` (line 35): pandas `.copy()` produces a fresh
frame with the same rows. -/
def copyFrame (rs : List Record) : List Record :=
  rs.map (fun r => r)

/-- Lines 36-37: `if gender != 'All': filtered_data =
filtered_data[filtered_data[f'demog_gen{gender[0].lower()}'] == 'yes']`.
`Male` selects the `demog_genm` column, `Female` the `demog_genf` column. -/
def genderFilter (g : Gender) (rs : List Record) : List Record :=
  match g with
  | .all => rs
  | .male => rs.filter (fun r => r.demog_genm == "yes")
  | .female => rs.filter (fun r => r.demog_genf == "yes")

/-- The gender row-selection predicate as a standalone boolean mask
(selecting `All` masks nothing). -/
def genderPred (g : Gender) (r : Record) : Bool :=
  match g with
  | .all => true
  | .male => r.demog_genm == "yes"
  | .female => r.demog_genf == "yes"

/-- Lines 45-46: `(filtered_data['demog_age'] >= age_range[0]) &
(filtered_data['demog_age'] <= age_range[1])`. -/
def agePred (lo hi : Int) (r : Record) : Bool :=
  decide (lo ≤ r.demog_age) && decide (r.demog_age ≤ hi)

/-- Lines 56-57: `(filtered_data['int_tgt'] >= sales_range[0]) &
(filtered_data['int_tgt'] <= sales_range[1])`. -/
def salesPred (lo hi : Int) (r : Record) : Bool :=
  decide (lo ≤ r.int_tgt) && decide (r.int_tgt ≤ hi)

/-- Pandas `series.min()`: the minimum of the column, `none` (NaN) when the
column is empty. -/
def colMin? : List Int → Option Int
  | [] => none
  | x :: xs =>
    match colMin? xs with
    | none => some x
    | some m => some (min x m)

/-- Pandas `series.max()`: the maximum of the column, `none` (NaN) when the
column is empty. -/
def colMax? : List Int → Option Int
  | [] => none
  | x :: xs =>
    match colMax? xs with
    | none => some x
    | some m => some (max x m)

/-- `int(col.min()), int(col.max())` as a pair: the slider bound computation
the script performs on a column. Python `int()` is the identity on the
integer-valued columns; on an empty column `.min()` / `.max()` is NaN and
`int(NaN)` raises `ValueError`, embedded as `none`. -/
def bounds? (vals : List Int) : Option (Int × Int) :=
  match colMin? vals, colMax? vals with
  | some lo, some hi => some (lo, hi)
  | _, _ => none

/-- Lines 40-42: the age slider's bounds
`int(filtered_data['demog_age'].min()), int(filtered_data['demog_age'].max())`,
computed from the frame as it stands after the gender filter. -/
def age_range_bounds (fd : List Record) : Option (Int × Int) :=
  bounds? (fd.map (·.demog_age))

/-- Lines 49-50: `sales_min = int(data['int_tgt'].min())`,
`sales_max = int(data['int_tgt'].max())`, computed from the base frame
`data`. -/
def sales_range_bounds (base : List Record) : Option (Int × Int) :=
  bounds? (base.map (·.int_tgt))

/-- The pure row-selection cascade of lines 35-57: copy, gender mask, age
range mask, sales range mask, in the implemented order. -/
def filteredView (base : List Record) (g : Gender) (alo ahi slo shi : Int) :
    List Record :=
  ((genderFilter g (copyFrame base)).filter (agePred alo ahi)).filter
    (salesPred slo shi)

/-- The full pipeline of lines 34-57 including the slider-bound computations
that the script performs before each range mask: it fails (`none`) exactly
when a slider bound computation hits `int(NaN)`. -/
def filterPipeline (base : List Record) (g : Gender) (alo ahi slo shi : Int) :
    Option (List Record) :=
  let fd := genderFilter g (copyFrame base)
  match age_range_bounds fd, sales_range_bounds base with
  | some _, some _ =>
    some ((fd.filter (agePred alo ahi)).filter (salesPred slo shi))
  | _, _ => none

/-- Pandas `series.mean()`: sum divided by length, NaN (`none`) on an empty
column. -/
def mean? (l : List Int) : Option ℚ :=
  if l = [] then none else some ((l.sum : ℚ) / (l.length : ℚ))

/-- Pandas `series.sum()`: `0` on an empty column (never NaN), embedded with
the same float-or-NaN codomain as the other metrics. -/
def sum? (l : List Int) : Option ℚ :=
  some ((l.sum : ℚ))

/-- Insert into a sorted list (helper for the sort underlying `median?`). -/
def insertSorted (x : Int) : List Int → List Int
  | [] => [x]
  | y :: ys => if x ≤ y then x :: y :: ys else y :: insertSorted x ys

/-- Insertion sort of a column's values. -/
def sortInts (l : List Int) : List Int :=
  l.foldr insertSorted []

/-- Pandas `series.median()`: middle of the sorted column for odd length, the
average of the two middle values for even length, NaN (`none`) on an empty
column. -/
def median? (l : List Int) : Option ℚ :=
  if l = [] then none
  else
    let s := sortInts l
    let n := l.length
    if n % 2 = 1 then some ((s.getD (n / 2) 0 : Int) : ℚ)
    else some (((s.getD (n / 2 - 1) 0 + s.getD (n / 2) 0 : Int) : ℚ) / 2)

/-- Line 61: `filtered_data['int_tgt'].mean()`. -/
def meanSalesMetric (view : List Record) : Option ℚ :=
  mean? (view.map (·.int_tgt))

/-- Line 62: `filtered_data['int_tgt'].sum()`. -/
def totalSalesMetric (view : List Record) : Option ℚ :=
  sum? (view.map (·.int_tgt))

/-- Line 63: `filtered_data['demog_age'].median()`. -/
def medianAgeMetric (view : List Record) : Option ℚ :=
  median? (view.map (·.demog_age))

/-- The three metric values of lines 59-63 as one tuple. -/
def metrics (view : List Record) : Option ℚ × Option ℚ × Option ℚ :=
  (meanSalesMetric view, totalSalesMetric view, medianAgeMetric view)

/-- Line 102: `predicted_sales = input_sales * 1.2`. -/
def predicted_sales (input_sales : ℚ) : ℚ :=
  input_sales * 1.2

/-- The script's two dataframe bindings: the memoized base frame `data` and
the derived `filtered_data`. -/
structure ScriptState where
  data : List Record
  filtered_data : List Record
deriving DecidableEq, Repr

/-- The straight-line execution of lines 14-57 as explicit state passing:
every assignment to `filtered_data` rebinds that name to a new frame, and
`data` is never assigned after load. Fails (`none`) where the script would
raise on `int(NaN)`. -/
def runScript (base : List Record) (g : Gender) (alo ahi slo shi : Int) :
    Option ScriptState :=
  let st1 : ScriptState := ⟨base, copyFrame base⟩
  let st2 : ScriptState := ⟨st1.data, genderFilter g st1.filtered_data⟩
  match age_range_bounds st2.filtered_data with
  | none => none
  | some _ =>
    let st3 : ScriptState :=
      ⟨st2.data, st2.filtered_data.filter (agePred alo ahi)⟩
    match sales_range_bounds st3.data with
    | none => none
    | some _ =>
      some ⟨st3.data, st3.filtered_data.filter (salesPred slo shi)⟩

/-! ## CSV export (lines 138-146)

`convert_df_to_csv` is `df.to_csv(index=False).encode('utf-8')`: every cell
is rendered as text, cells are joined with `','`, each line (one header line
of column names, then one line per row, in order) ends with `'\n'`.
Integer cells render in decimal, string cells verbatim (the pandas CSV
quoting that kicks in when a cell contains a delimiter, quote or line break
is not modelled; round-trip statements therefore restrict string cells to
characters outside that set). Parsing mirrors `pd.read_csv`: split lines,
drop the trailing blank line, skip the header, split each line on `','` and
rebuild the typed cells of each row. -/

/-- The decimal digit characters used to render an integer cell. -/
def renderDigit (d : Nat) : Char :=
  (['0', '1', '2', '3', '4', '5', '6', '7', '8', '9'] : List Char).getD d '0'

/-- The numeric value of a decimal digit character (0 for non-digits). -/
def parseDigit (c : Char) : Nat :=
  if c = '1' then 1 else if c = '2' then 2 else if c = '3' then 3
  else if c = '4' then 4 else if c = '5' then 5 else if c = '6' then 6
  else if c = '7' then 7 else if c = '8' then 8 else if c = '9' then 9
  else 0

/-- Fuel-based decimal rendering of a natural number (most significant digit
first); `fuel ≥ n` suffices for all digits to be emitted. -/
def renderNatAux : Nat → Nat → List Char
  | 0, _ => []
  | fuel + 1, n =>
    if n = 0 then []
    else renderNatAux fuel (n / 10) ++ [renderDigit (n % 10)]

/-- Python `str` of a natural number. -/
def renderNat (n : Nat) : List Char :=
  if n = 0 then ['0'] else renderNatAux n n

/-- Parse a decimal digit string back to a natural number. -/
def parseNat (cs : List Char) : Nat :=
  Nat.ofDigits 10 ((cs.map parseDigit).reverse)

/-- Python `str` of an integer cell value. -/
def renderInt (i : Int) : List Char :=
  if i < 0 then '-' :: renderNat i.natAbs else renderNat i.natAbs

/-- Parse an optionally `'-'`-prefixed decimal string back to an integer. -/
def parseInt (cs : List Char) : Int :=
  match cs with
  | [] => 0
  | c :: rest =>
    if c = '-' then -(parseNat rest : Int) else (parseNat (c :: rest) : Int)

/-- Join cell (or line) texts with a separator character. -/
def joinSep (sep : Char) : List (List Char) → List Char
  | [] => []
  | [x] => x
  | x :: y :: ys => x ++ sep :: joinSep sep (y :: ys)

/-- Split a text at every occurrence of the separator character. -/
def splitSep (sep : Char) : List Char → List (List Char)
  | [] => [[]]
  | c :: cs =>
    if c = sep then [] :: splitSep sep cs
    else
      match splitSep sep cs with
      | [] => [[c]]
      | h :: t => (c :: h) :: t

/-- A character that needs no CSV quoting: not the delimiter, not a line
break, not the quote character. -/
def plainChar (c : Char) : Bool :=
  !(c = ',' || c = '\n' || c = '\r' || c = '"')

/-- A cell text that needs no CSV quoting. -/
def plainCell (cs : List Char) : Bool :=
  cs.all plainChar

/-- A row whose string cells need no CSV quoting. -/
def plainRecord (r : Record) : Bool :=
  plainCell r.demog_genm.toList && plainCell r.demog_genf.toList &&
    r.others.all (fun s => plainCell s.toList)

/-- The rendered cells of one row, in the frame's column order. -/
def recordCells (r : Record) : List (List Char) :=
  renderInt r.demog_age :: r.demog_genm.toList :: r.demog_genf.toList ::
    renderInt r.int_tgt :: r.others.map String.toList

/-- Rebuild a typed row from the split cells of one CSV line. -/
def parseRecord (cells : List (List Char)) : Option Record :=
  match cells with
  | a :: gm :: gf :: t :: rest =>
    some ⟨parseInt a, String.mk gm, String.mk gf, parseInt t,
      rest.map String.mk⟩
  | _ => none

/-- The header line's cells: the four modelled column names followed by the
names of the remaining columns. -/
def headerCells (extra : List String) : List (List Char) :=
  "demog_age".toList :: "demog_genm".toList :: "demog_genf".toList ::
    "int_tgt".toList :: extra.map String.toList

/-- Lines 138-140: `df.to_csv(index=False)` — one header line then one line
per row, comma-separated cells, every line terminated by `'\n'`. -/
def convert_df_to_csv (extra : List String) (df : List Record) : List Char :=
  joinSep '\n' (joinSep ',' (headerCells extra) ::
    df.map (fun r => joinSep ',' (recordCells r))) ++ ['\n']

/-- `pd.read_csv` on an exported file: split into lines, ignore the trailing
blank line, skip the header line, and rebuild each remaining line's row. -/
def parseCsv (text : List Char) : Option (List Record) :=
  let ls := splitSep '\n' text
  let ls2 := if ls.getLast? = some [] then ls.dropLast else ls
  match ls2 with
  | [] => none
  | _hdr :: rows => rows.mapM (fun line => parseRecord (splitSep ',' line))

/-- A sample row used to instantiate hypotheses on concrete data. -/
def sampleRecord : Record :=
  ⟨25, "yes", "no", 50, []⟩

/-- A record whose gender indicator columns are both `"no"`, so that the
`Male` (or `Female`) gender selection matches no rows. -/
def c5FailRecord : Record :=
  ⟨30, "no", "no", 10, []⟩

/-! ## Helper lemmas -/

theorem copyFrame_eq (rs : List Record) : copyFrame rs = rs := by
  simp [copyFrame]

theorem genderFilter_eq_filter (g : Gender) (rs : List Record) :
    genderFilter g rs = rs.filter (genderPred g) := by
  cases g with
  | all =>
    have hp : genderPred .all = fun _ : Record => true := rfl
    rw [genderFilter, hp, List.filter_true]
  | male => rfl
  | female => rfl

theorem mem_genderFilter {g : Gender} {rs : List Record} {r : Record}
    (h : r ∈ genderFilter g rs) : r ∈ rs := by
  rw [genderFilter_eq_filter] at h
  exact List.mem_of_mem_filter h

theorem filter_length_mono {α : Type} {p q : α → Bool} (l : List α)
    (h : ∀ a, p a = true → q a = true) :
    (l.filter p).length ≤ (l.filter q).length := by
  have hsub : (l.filter q).filter p = l.filter p := by
    rw [List.filter_filter]
    refine List.filter_congr ?_
    intro x _
    cases hp : p x with
    | false => simp [hp]
    | true => simp [hp, h x hp]
  calc (l.filter p).length
      = ((l.filter q).filter p).length := by rw [hsub]
    _ ≤ (l.filter q).length :=
        (List.filter_sublist _).length_le

theorem filter3_eq {α : Type} (p q w : α → Bool) (l : List α) :
    ((l.filter p).filter q).filter w =
      l.filter (fun a => p a && q a && w a) := by
  rw [List.filter_filter, List.filter_filter]
  refine List.filter_congr ?_
  intro x _
  cases p x <;> cases q x <;> cases w x <;> rfl

theorem filteredView_eq_filter (base : List Record) (g : Gender)
    (alo ahi slo shi : Int) :
    filteredView base g alo ahi slo shi =
      base.filter (fun r => genderPred g r && agePred alo ahi r &&
        salesPred slo shi r) := by
  unfold filteredView
  rw [copyFrame_eq, genderFilter_eq_filter, List.filter_filter,
    List.filter_filter]
  refine List.filter_congr ?_
  intro x _
  cases genderPred g x <;> cases agePred alo ahi x <;>
    cases salesPred slo shi x <;> rfl

theorem colMin?_ne_none (x : Int) (xs : List Int) : colMin? (x :: xs) ≠ none := by
  rw [colMin?]
  cases colMin? xs <;> simp

theorem colMax?_ne_none (x : Int) (xs : List Int) : colMax? (x :: xs) ≠ none := by
  rw [colMax?]
  cases colMax? xs <;> simp

theorem colMin?_eq_none {l : List Int} (h : colMin? l = none) : l = [] := by
  cases l with
  | nil => rfl
  | cons x xs => exact absurd h (colMin?_ne_none x xs)

theorem colMax?_eq_none {l : List Int} (h : colMax? l = none) : l = [] := by
  cases l with
  | nil => rfl
  | cons x xs => exact absurd h (colMax?_ne_none x xs)

theorem colMin?_spec {l : List Int} {m : Int} (h : colMin? l = some m) :
    m ∈ l ∧ ∀ x ∈ l, m ≤ x := by
  induction l generalizing m with
  | nil => simp [colMin?] at h
  | cons x xs ih =>
    rw [colMin?] at h
    cases hxs : colMin? xs with
    | none =>
      have hnil := colMin?_eq_none hxs
      subst hnil
      rw [hxs] at h
      simp at h
      subst h
      simp
    | some m' =>
      rw [hxs] at h
      simp at h
      obtain ⟨hmem, hle⟩ := ih hxs
      subst h
      constructor
      · rcases le_total x m' with hx | hx
        · simp [min_eq_left hx]
        · right
          rw [min_eq_right hx]
          exact hmem
      · intro z hz
        rcases List.mem_cons.mp hz with hz | hz
        · simp [hz]
        · exact le_trans (min_le_right x m') (hle z hz)

theorem colMax?_spec {l : List Int} {m : Int} (h : colMax? l = some m) :
    m ∈ l ∧ ∀ x ∈ l, x ≤ m := by
  induction l generalizing m with
  | nil => simp [colMax?] at h
  | cons x xs ih =>
    rw [colMax?] at h
    cases hxs : colMax? xs with
    | none =>
      have hnil := colMax?_eq_none hxs
      subst hnil
      rw [hxs] at h
      simp at h
      subst h
      simp
    | some m' =>
      rw [hxs] at h
      simp at h
      obtain ⟨hmem, hle⟩ := ih hxs
      subst h
      constructor
      · rcases le_total x m' with hx | hx
        · right
          rw [max_eq_right hx]
          exact hmem
        · simp [max_eq_left hx]
      · intro z hz
        rcases List.mem_cons.mp hz with hz | hz
        · simp [hz]
        · exact le_trans (hle z hz) (le_max_right x m')

theorem colMin?_isSome_of_ne_nil {l : List Int} (h : l ≠ []) :
    ∃ m, colMin? l = some m := by
  cases l with
  | nil => exact absurd rfl h
  | cons x xs =>
    rw [colMin?]
    cases colMin? xs <;> exact ⟨_, rfl⟩

theorem colMax?_isSome_of_ne_nil {l : List Int} (h : l ≠ []) :
    ∃ m, colMax? l = some m := by
  cases l with
  | nil => exact absurd rfl h
  | cons x xs =>
    rw [colMax?]
    cases colMax? xs <;> exact ⟨_, rfl⟩

/-! ## Claim theorems -/

/-- C1: for every base record set and every filter selection, the filtered
view produced by the gender, age-range and sales-range masks is a subset of
the base record set. -/
theorem C1_filteredView_subset_base (base : List Record) (g : Gender)
    (alo ahi slo shi : Int) (r : Record)
    (h : r ∈ filteredView base g alo ahi slo shi) : r ∈ base := by
  unfold filteredView at h
  rw [copyFrame_eq] at h
  exact mem_genderFilter (List.mem_of_mem_filter (List.mem_of_mem_filter h))

theorem C1_witness : sampleRecord ∈ [sampleRecord] :=
  C1_filteredView_subset_base [sampleRecord] .all 0 100 0 100 sampleRecord
    (by decide)

/-- C2: applying the gender, age-range and sales-range row-selection masks in
any of the six possible orders yields the same result as the implemented
order (gender, then age, then sales). -/
theorem C2_filter_order_irrelevant (base : List Record) (g : Gender)
    (alo ahi slo shi : Int) :
    (((base.filter (genderPred g)).filter (agePred alo ahi)).filter
        (salesPred slo shi) = filteredView base g alo ahi slo shi) ∧
    (((base.filter (genderPred g)).filter (salesPred slo shi)).filter
        (agePred alo ahi) = filteredView base g alo ahi slo shi) ∧
    (((base.filter (agePred alo ahi)).filter (genderPred g)).filter
        (salesPred slo shi) = filteredView base g alo ahi slo shi) ∧
    (((base.filter (agePred alo ahi)).filter (salesPred slo shi)).filter
        (genderPred g) = filteredView base g alo ahi slo shi) ∧
    (((base.filter (salesPred slo shi)).filter (genderPred g)).filter
        (agePred alo ahi) = filteredView base g alo ahi slo shi) ∧
    (((base.filter (salesPred slo shi)).filter (agePred alo ahi)).filter
        (genderPred g) = filteredView base g alo ahi slo shi) := by
  rw [filteredView_eq_filter]
  refine ⟨?_, ?_, ?_, ?_, ?_, ?_⟩ <;>
    exact (filter3_eq _ _ _ _).trans (List.filter_congr (fun x _ => by
      cases genderPred g x <;> cases agePred alo ahi x <;>
        cases salesPred slo shi x <;> rfl))

theorem agePred_mono {alo alo' ahi ahi' : Int} (h1 : alo ≤ alo')
    (h2 : ahi' ≤ ahi) (r : Record) (h : agePred alo' ahi' r = true) :
    agePred alo ahi r = true := by
  simp only [agePred, Bool.and_eq_true, decide_eq_true_eq] at h ⊢
  omega

theorem salesPred_mono {slo slo' shi shi' : Int} (h1 : slo ≤ slo')
    (h2 : shi' ≤ shi) (r : Record) (h : salesPred slo' shi' r = true) :
    salesPred slo shi r = true := by
  simp only [salesPred, Bool.and_eq_true, decide_eq_true_eq] at h ⊢
  omega

/-- C3: narrowing any one of the range bounds (raising the age or sales lower
bound, or lowering the age or sales upper bound) while the other selection
parameters are fixed never increases the filtered view's size. -/
theorem C3_narrowing_never_grows (base : List Record) (g : Gender)
    (alo ahi slo shi : Int) :
    (∀ alo', alo ≤ alo' →
      (filteredView base g alo' ahi slo shi).length ≤
        (filteredView base g alo ahi slo shi).length) ∧
    (∀ ahi', ahi' ≤ ahi →
      (filteredView base g alo ahi' slo shi).length ≤
        (filteredView base g alo ahi slo shi).length) ∧
    (∀ slo', slo ≤ slo' →
      (filteredView base g alo ahi slo' shi).length ≤
        (filteredView base g alo ahi slo shi).length) ∧
    (∀ shi', shi' ≤ shi →
      (filteredView base g alo ahi slo shi').length ≤
        (filteredView base g alo ahi slo shi).length) := by
  refine ⟨?_, ?_, ?_, ?_⟩
  · intro b hb
    rw [filteredView_eq_filter, filteredView_eq_filter]
    refine filter_length_mono base ?_
    intro r hr
    rw [Bool.and_eq_true, Bool.and_eq_true] at hr ⊢
    exact ⟨⟨hr.1.1, agePred_mono hb le_rfl r hr.1.2⟩, hr.2⟩
  · intro b hb
    rw [filteredView_eq_filter, filteredView_eq_filter]
    refine filter_length_mono base ?_
    intro r hr
    rw [Bool.and_eq_true, Bool.and_eq_true] at hr ⊢
    exact ⟨⟨hr.1.1, agePred_mono le_rfl hb r hr.1.2⟩, hr.2⟩
  · intro b hb
    rw [filteredView_eq_filter, filteredView_eq_filter]
    refine filter_length_mono base ?_
    intro r hr
    rw [Bool.and_eq_true, Bool.and_eq_true] at hr ⊢
    exact ⟨hr.1, salesPred_mono hb le_rfl r hr.2⟩
  · intro b hb
    rw [filteredView_eq_filter, filteredView_eq_filter]
    refine filter_length_mono base ?_
    intro r hr
    rw [Bool.and_eq_true, Bool.and_eq_true] at hr ⊢
    exact ⟨hr.1, salesPred_mono le_rfl hb r hr.2⟩

theorem C3_witness :
    (filteredView [sampleRecord] .all 26 30 0 100).length ≤
      (filteredView [sampleRecord] .all 20 30 0 100).length :=
  (C3_narrowing_never_grows [sampleRecord] .all 20 30 0 100).1 26 (by decide)

/-- C8: for every non-negative rational input, the prediction stub returns
exactly the input times 1.2 (= 6/5). -/
theorem C8_predicted_sales_formula (x : ℚ) (h : 0 ≤ x) :
    predicted_sales x = x * (6 / 5) := by
  unfold predicted_sales
  norm_num

theorem C8_witness : predicted_sales 50 = 50 * (6 / 5) :=
  C8_predicted_sales_formula 50 (by norm_num)

theorem bounds?_spec {vals : List Int} {lo hi : Int}
    (h : bounds? vals = some (lo, hi)) :
    lo ∈ vals ∧ (∀ x ∈ vals, lo ≤ x) ∧ hi ∈ vals ∧ (∀ x ∈ vals, x ≤ hi) := by
  rw [bounds?] at h
  cases hmin : colMin? vals with
  | none =>
    rw [hmin] at h
    simp at h
  | some a =>
    cases hmax : colMax? vals with
    | none =>
      rw [hmin, hmax] at h
      simp at h
    | some b =>
      rw [hmin, hmax] at h
      simp at h
      obtain ⟨h1, h2⟩ := h
      subst h1
      subst h2
      obtain ⟨hm1, hm2⟩ := colMin?_spec hmin
      obtain ⟨hM1, hM2⟩ := colMax?_spec hmax
      exact ⟨hm1, hm2, hM1, hM2⟩

/-- C4: the age slider is initialized with lower and upper bounds equal to
the observed minimum and maximum of `demog_age` over the record set being
filtered (the frame after the gender selection), and the sales slider with
bounds equal to the observed minimum and maximum of `int_tgt` over the base
record set. -/
theorem C4_slider_bounds_observed (base : List Record) (g : Gender) :
    (∀ lo hi,
      age_range_bounds (genderFilter g (copyFrame base)) = some (lo, hi) →
        (∃ r ∈ genderFilter g (copyFrame base), r.demog_age = lo) ∧
        (∀ r ∈ genderFilter g (copyFrame base), lo ≤ r.demog_age) ∧
        (∃ r ∈ genderFilter g (copyFrame base), r.demog_age = hi) ∧
        (∀ r ∈ genderFilter g (copyFrame base), r.demog_age ≤ hi)) ∧
    (∀ lo hi, sales_range_bounds base = some (lo, hi) →
        (∃ r ∈ base, r.int_tgt = lo) ∧ (∀ r ∈ base, lo ≤ r.int_tgt) ∧
        (∃ r ∈ base, r.int_tgt = hi) ∧ (∀ r ∈ base, r.int_tgt ≤ hi)) := by
  constructor
  · intro lo hi h
    unfold age_range_bounds at h
    obtain ⟨hm1, hm2, hM1, hM2⟩ := bounds?_spec h
    refine ⟨?_, ?_, ?_, ?_⟩
    · obtain ⟨r, hr, hre⟩ := List.mem_map.mp hm1
      exact ⟨r, hr, hre⟩
    · intro r hr
      exact hm2 _ (List.mem_map.mpr ⟨r, hr, rfl⟩)
    · obtain ⟨r, hr, hre⟩ := List.mem_map.mp hM1
      exact ⟨r, hr, hre⟩
    · intro r hr
      exact hM2 _ (List.mem_map.mpr ⟨r, hr, rfl⟩)
  · intro lo hi h
    unfold sales_range_bounds at h
    obtain ⟨hm1, hm2, hM1, hM2⟩ := bounds?_spec h
    refine ⟨?_, ?_, ?_, ?_⟩
    · obtain ⟨r, hr, hre⟩ := List.mem_map.mp hm1
      exact ⟨r, hr, hre⟩
    · intro r hr
      exact hm2 _ (List.mem_map.mpr ⟨r, hr, rfl⟩)
    · obtain ⟨r, hr, hre⟩ := List.mem_map.mp hM1
      exact ⟨r, hr, hre⟩
    · intro r hr
      exact hM2 _ (List.mem_map.mpr ⟨r, hr, rfl⟩)

theorem C4_witness :
    (∃ r ∈ ([sampleRecord] : List Record), r.int_tgt = 50) ∧
    (∀ r ∈ ([sampleRecord] : List Record), 50 ≤ r.int_tgt) ∧
    (∃ r ∈ ([sampleRecord] : List Record), r.int_tgt = 50) ∧
    (∀ r ∈ ([sampleRecord] : List Record), r.int_tgt ≤ 50) :=
  (C4_slider_bounds_observed [sampleRecord] .all).2 50 50 (by decide)

/-- C5: the claim says the pipeline has no error cases even when the gender
predicate matches no records; in the code, a base set with no
`demog_genm == 'yes'` rows under the `Male` selection leaves the gender
filter empty, so `int(filtered_data['demog_age'].min())` is `int(NaN)`,
which raises `ValueError` — embedded as the pipeline returning `none`. -/
theorem C5_gender_empty_pipeline_fails :
    filterPipeline [c5FailRecord] .male 20 30 0 100 = none := by
  decide

/-- C6 counterexample: on the empty filtered view not all three metrics are
the NaN "no data" sentinel — pandas `sum()` of an empty column is `0`, not
NaN. -/
theorem C6_counterexample :
    ¬ (meanSalesMetric [] = none ∧ totalSalesMetric [] = none ∧
        medianAgeMetric [] = none) := by
  decide

/-- C6 (amended): on the empty filtered view the mean and median are the NaN
"no data" sentinel (`none`), the sum is the well-defined value `0`, and
computing all three is total (no exception). -/
theorem C6_empty_view_metrics :
    metrics [] = (none, some 0, none) := by
  decide

/-- C9: with gender `All`, age range `[20, 30]` and the sales range equal to
the sales slider's own `[min, max]` bounds, the filtered view is exactly the
set of base records whose age lies in `[20, 30]`, and the three metrics are
computed over exactly that subset. -/
theorem C9_all_gender_age_full_sales (base : List Record) (slo shi : Int)
    (h : sales_range_bounds base = some (slo, shi)) :
    filteredView base .all 20 30 slo shi = base.filter (agePred 20 30) ∧
    metrics (filteredView base .all 20 30 slo shi) =
      metrics (base.filter (agePred 20 30)) := by
  unfold sales_range_bounds at h
  obtain ⟨_, hlo, _, hhi⟩ := bounds?_spec h
  have hview : filteredView base .all 20 30 slo shi =
      base.filter (agePred 20 30) := by
    unfold filteredView
    rw [copyFrame_eq]
    have hg : genderFilter .all base = base := rfl
    rw [hg]
    refine List.filter_eq_self.mpr ?_
    intro r hr
    have hrb : r ∈ base := List.mem_of_mem_filter hr
    simp only [salesPred, Bool.and_eq_true, decide_eq_true_eq]
    exact ⟨hlo _ (List.mem_map.mpr ⟨r, hrb, rfl⟩),
      hhi _ (List.mem_map.mpr ⟨r, hrb, rfl⟩)⟩
  exact ⟨hview, by rw [hview]⟩

theorem C9_witness :
    filteredView [sampleRecord] .all 20 30 50 50 =
      [sampleRecord].filter (agePred 20 30) ∧
    metrics (filteredView [sampleRecord] .all 20 30 50 50) =
      metrics ([sampleRecord].filter (agePred 20 30)) :=
  C9_all_gender_age_full_sales [sampleRecord] 50 50 (by decide)

/-- C10: the straight-line script never mutates the memoized base frame:
whenever the filter pipeline runs to completion, the `data` binding of the
final script state is the base record set loaded at startup. -/
theorem C10_base_frame_unchanged (base : List Record) (g : Gender)
    (alo ahi slo shi : Int) (st : ScriptState)
    (h : runScript base g alo ahi slo shi = some st) : st.data = base := by
  simp only [runScript] at h
  split at h
  · exact Option.noConfusion h
  · split at h
    · exact Option.noConfusion h
    · injection h with h'
      subst h'
      rfl

theorem C10_witness :
    (⟨[sampleRecord], [sampleRecord]⟩ : ScriptState).data = [sampleRecord] :=
  C10_base_frame_unchanged [sampleRecord] .all 20 30 0 100
    ⟨[sampleRecord], [sampleRecord]⟩ (by decide)

/-! ## CSV round-trip lemmas -/

theorem parseDigit_renderDigit {d : Nat} (h : d < 10) :
    parseDigit (renderDigit d) = d := by
  interval_cases d <;> decide

theorem renderDigit_plain (d : Nat) :
    plainChar (renderDigit d) = true ∧ renderDigit d ≠ '-' := by
  rcases Nat.lt_or_ge d 10 with h | h
  · interval_cases d <;> exact ⟨by decide, by decide⟩
  · rw [renderDigit, List.getD_eq_default]
    · exact ⟨by decide, by decide⟩
    · simpa using h

theorem parseNat_append_digit (cs : List Char) (c : Char) :
    parseNat (cs ++ [c]) = parseDigit c + 10 * parseNat cs := by
  rw [parseNat, parseNat, List.map_append, List.reverse_append]
  simp [Nat.ofDigits_cons]

theorem parseNat_renderNatAux : ∀ (fuel n : Nat), n ≤ fuel →
    parseNat (renderNatAux fuel n) = n := by
  intro fuel
  induction fuel with
  | zero =>
    intro n hn
    interval_cases n
    rfl
  | succ fuel ih =>
    intro n hn
    rw [renderNatAux]
    by_cases h : n = 0
    · rw [if_pos h, h]
      rfl
    · rw [if_neg h, parseNat_append_digit]
      have hdiv : n / 10 ≤ fuel := by
        have := Nat.div_lt_self (Nat.pos_of_ne_zero h) (by norm_num : 1 < 10)
        omega
      have h10 : n % 10 < 10 := Nat.mod_lt _ (by norm_num)
      rw [ih (n / 10) hdiv, parseDigit_renderDigit h10]
      omega

theorem parseNat_renderNat (n : Nat) : parseNat (renderNat n) = n := by
  rw [renderNat]
  by_cases h : n = 0
  · rw [if_pos h, h]
    decide
  · rw [if_neg h]
    exact parseNat_renderNatAux n n le_rfl

theorem renderNatAux_chars : ∀ (fuel n : Nat) (c : Char),
    c ∈ renderNatAux fuel n → ∃ d, c = renderDigit d := by
  intro fuel
  induction fuel with
  | zero =>
    intro n c hc
    simp [renderNatAux] at hc
  | succ fuel ih =>
    intro n c hc
    rw [renderNatAux] at hc
    by_cases h : n = 0
    · rw [if_pos h] at hc
      simp at hc
    · rw [if_neg h] at hc
      rcases List.mem_append.mp hc with hc | hc
      · exact ih _ c hc
      · simp at hc
        exact ⟨n % 10, hc⟩

theorem renderNat_chars (n : Nat) (c : Char) (hc : c ∈ renderNat n) :
    ∃ d, c = renderDigit d := by
  rw [renderNat] at hc
  by_cases h : n = 0
  · rw [if_pos h] at hc
    simp at hc
    exact ⟨0, by rw [hc]; rfl⟩
  · rw [if_neg h] at hc
    exact renderNatAux_chars n n c hc

theorem renderNat_ne_nil (n : Nat) : renderNat n ≠ [] := by
  rw [renderNat]
  by_cases h : n = 0
  · rw [if_pos h]
    simp
  · rw [if_neg h]
    obtain ⟨m, rfl⟩ := Nat.exists_eq_succ_of_ne_zero h
    rw [renderNatAux, if_neg h]
    simp

theorem renderNat_ne_dash (n : Nat) : ∀ c ∈ renderNat n, c ≠ '-' := by
  intro c hc
  obtain ⟨d, rfl⟩ := renderNat_chars n c hc
  exact (renderDigit_plain d).2

theorem renderInt_plain (i : Int) : ∀ c ∈ renderInt i, plainChar c = true := by
  have hn : ∀ c ∈ renderNat i.natAbs, plainChar c = true := by
    intro c hc
    obtain ⟨d, rfl⟩ := renderNat_chars _ c hc
    exact (renderDigit_plain d).1
  intro c hc
  rw [renderInt] at hc
  by_cases h : i < 0
  · rw [if_pos h] at hc
    rcases List.mem_cons.mp hc with rfl | hc
    · decide
    · exact hn c hc
  · rw [if_neg h] at hc
    exact hn c hc

theorem parseInt_renderInt (i : Int) : parseInt (renderInt i) = i := by
  by_cases h : i < 0
  · rw [renderInt, if_pos h]
    simp only [parseInt]
    rw [if_pos trivial, parseNat_renderNat]
    omega
  · rw [renderInt, if_neg h]
    cases hr : renderNat i.natAbs with
    | nil => exact absurd hr (renderNat_ne_nil _)
    | cons c cs =>
      have hc : c ≠ '-' :=
        renderNat_ne_dash _ c (by rw [hr]; exact List.mem_cons_self c cs)
      simp only [parseInt]
      rw [if_neg hc, ← hr, parseNat_renderNat]
      omega

theorem splitSep_no_sep (sep : Char) : ∀ (x : List Char), sep ∉ x →
    splitSep sep x = [x] := by
  intro x
  induction x with
  | nil =>
    intro _
    rfl
  | cons c cs ih =>
    intro h
    have hc : c ≠ sep := fun e => h (by rw [e]; exact List.mem_cons_self _ _)
    rw [splitSep, if_neg hc, ih (fun hm => h (List.mem_cons_of_mem _ hm))]

theorem splitSep_append (sep : Char) : ∀ (x rest : List Char), sep ∉ x →
    splitSep sep (x ++ sep :: rest) = x :: splitSep sep rest := by
  intro x
  induction x with
  | nil =>
    intro rest _
    rw [List.nil_append, splitSep, if_pos rfl]
  | cons c cs ih =>
    intro rest h
    have hc : c ≠ sep := fun e => h (by rw [e]; exact List.mem_cons_self _ _)
    rw [List.cons_append, splitSep, if_neg hc,
      ih rest (fun hm => h (List.mem_cons_of_mem _ hm))]

theorem splitSep_joinSep (sep : Char) : ∀ (ls : List (List Char)), ls ≠ [] →
    (∀ l ∈ ls, sep ∉ l) → splitSep sep (joinSep sep ls) = ls := by
  intro ls
  induction ls with
  | nil =>
    intro h _
    exact absurd rfl h
  | cons x xs ih =>
    intro _ hsep
    cases xs with
    | nil =>
      simp only [joinSep]
      exact splitSep_no_sep sep x (hsep x (List.mem_cons_self _ _))
    | cons y ys =>
      simp only [joinSep]
      rw [splitSep_append sep x _ (hsep x (List.mem_cons_self _ _)),
        ih (by simp) (fun l hl => hsep l (List.mem_cons_of_mem _ hl))]

theorem joinSep_concat_nil (sep : Char) : ∀ (ls : List (List Char)), ls ≠ [] →
    joinSep sep (ls ++ [[]]) = joinSep sep ls ++ [sep] := by
  intro ls
  induction ls with
  | nil =>
    intro h
    exact absurd rfl h
  | cons x xs ih =>
    intro _
    cases xs with
    | nil => simp [joinSep]
    | cons y ys =>
      rw [List.cons_append, List.cons_append]
      simp only [joinSep]
      rw [← List.cons_append y ys [[]], ih (by simp)]
      simp

theorem not_mem_joinSep {c : Char} (sep : Char) : ∀ (ls : List (List Char)),
    c ≠ sep → (∀ l ∈ ls, c ∉ l) → c ∉ joinSep sep ls := by
  intro ls
  induction ls with
  | nil =>
    intro _ _
    simp [joinSep]
  | cons x xs ih =>
    intro hc h
    cases xs with
    | nil =>
      simp only [joinSep]
      exact h x (List.mem_cons_self _ _)
    | cons y ys =>
      simp only [joinSep]
      intro hmem
      rcases List.mem_append.mp hmem with hm | hm
      · exact h x (List.mem_cons_self _ _) hm
      · rcases List.mem_cons.mp hm with rfl | hm
        · exact hc rfl
        · exact ih hc (fun l hl => h l (List.mem_cons_of_mem _ hl)) hm

theorem plainChar_spec {c : Char} (h : plainChar c = true) :
    c ≠ ',' ∧ c ≠ '\n' := by
  rw [plainChar] at h
  simp at h
  refine ⟨?_, ?_⟩ <;> tauto

theorem recordCells_plain {r : Record} (h : plainRecord r = true) :
    ∀ cell ∈ recordCells r, ∀ c ∈ cell, plainChar c = true := by
  rw [plainRecord, Bool.and_eq_true, Bool.and_eq_true] at h
  obtain ⟨⟨h1, h2⟩, h3⟩ := h
  intro cell hcell
  rw [recordCells] at hcell
  rcases List.mem_cons.mp hcell with rfl | hcell
  · exact renderInt_plain _
  · rcases List.mem_cons.mp hcell with rfl | hcell
    · intro c hc
      exact List.all_eq_true.mp h1 c hc
    · rcases List.mem_cons.mp hcell with rfl | hcell
      · intro c hc
        exact List.all_eq_true.mp h2 c hc
      · rcases List.mem_cons.mp hcell with rfl | hcell
        · exact renderInt_plain _
        · obtain ⟨s, hs, rfl⟩ := List.mem_map.mp hcell
          intro c hc
          exact List.all_eq_true.mp (List.all_eq_true.mp h3 s hs) c hc

theorem headerCells_plain {extra : List String}
    (hextra : ∀ s ∈ extra, plainCell s.toList = true) :
    ∀ cell ∈ headerCells extra, ∀ c ∈ cell, plainChar c = true := by
  intro cell hcell
  rw [headerCells] at hcell
  rcases List.mem_cons.mp hcell with rfl | hcell
  · decide
  · rcases List.mem_cons.mp hcell with rfl | hcell
    · decide
    · rcases List.mem_cons.mp hcell with rfl | hcell
      · decide
      · rcases List.mem_cons.mp hcell with rfl | hcell
        · decide
        · obtain ⟨s, hs, rfl⟩ := List.mem_map.mp hcell
          intro c hc
          exact List.all_eq_true.mp (hextra s hs) c hc

theorem parseRecord_recordCells (r : Record) :
    parseRecord (recordCells r) = some r := by
  obtain ⟨a, gm, gf, t, o⟩ := r
  rw [recordCells]
  simp only [parseRecord]
  rw [parseInt_renderInt, parseInt_renderInt, List.map_map]
  have ho : o.map (String.mk ∘ String.toList) = o := List.map_id o
  rw [ho]
  rfl

theorem rows_mapM : ∀ (df : List Record),
    (∀ r ∈ df,
      parseRecord (splitSep ',' (joinSep ',' (recordCells r))) = some r) →
    (df.map (fun r => joinSep ',' (recordCells r))).mapM
      (fun line => parseRecord (splitSep ',' line)) = some df := by
  intro df
  induction df with
  | nil =>
    intro _
    rfl
  | cons r rs ih =>
    intro h
    rw [List.map_cons]
    simp only [List.mapM_cons]
    rw [h r (List.mem_cons_self _ _),
      ih (fun x hx => h x (List.mem_cons_of_mem _ hx))]
    rfl

/-- C7: export round trip — serializing the filtered view to CSV (header
line, comma-delimited cells, rows in the current order) and parsing the
result reproduces exactly the rows and columns of the view, with no
transformation of values. String cells are assumed free of the delimiter,
quote and line-break characters (the cases where pandas would apply CSV
quoting, which the embedding does not model). -/
theorem C7_export_round_trip (extra : List String) (df : List Record)
    (hextra : ∀ s ∈ extra, plainCell s.toList = true)
    (hdf : ∀ r ∈ df, plainRecord r = true) :
    parseCsv (convert_df_to_csv extra df) = some df := by
  have hlines : ∀ l ∈ (joinSep ',' (headerCells extra) ::
      df.map (fun r => joinSep ',' (recordCells r))), '\n' ∉ l := by
    intro l hl
    rcases List.mem_cons.mp hl with rfl | hl
    · exact not_mem_joinSep ',' (headerCells extra) (by decide)
        (fun cell hc hm =>
          absurd (headerCells_plain hextra cell hc '\n' hm) (by decide))
    · obtain ⟨r, hr, rfl⟩ := List.mem_map.mp hl
      exact not_mem_joinSep ',' (recordCells r) (by decide)
        (fun cell hc hm =>
          absurd (recordCells_plain (hdf r hr) cell hc '\n' hm) (by decide))
  have hsplit : splitSep '\n' (joinSep '\n' ((joinSep ',' (headerCells extra) ::
      df.map (fun r => joinSep ',' (recordCells r))) ++ [[]])) =
      (joinSep ',' (headerCells extra) ::
        df.map (fun r => joinSep ',' (recordCells r))) ++ [[]] := by
    refine splitSep_joinSep '\n' _ (by simp) ?_
    intro l hl
    rcases List.mem_append.mp hl with hl | hl
    · exact hlines l hl
    · simp at hl
      rw [hl]
      simp
  rw [convert_df_to_csv, ← joinSep_concat_nil '\n' _ (by simp)]
  simp only [parseCsv]
  rw [hsplit, List.getLast?_concat, if_pos rfl, List.dropLast_concat]
  show (df.map (fun r => joinSep ',' (recordCells r))).mapM
      (fun line => parseRecord (splitSep ',' line)) = some df
  refine rows_mapM df ?_
  intro r hr
  rw [splitSep_joinSep ',' (recordCells r) (by simp [recordCells])
    (fun cell hcell hm =>
      absurd (recordCells_plain (hdf r hr) cell hcell ',' hm) (by decide))]
  exact parseRecord_recordCells r

theorem C7_witness :
    parseCsv (convert_df_to_csv [] [sampleRecord]) = some [sampleRecord] :=
  C7_export_round_trip [] [sampleRecord] (by decide) (by decide)
